import Mathlib

/-!
Verification of the email-mcp mailbox client (src/imap.ts, src/smtp.ts).

The TypeScript source is shallowly embedded: pure computations become Lean
functions, and each IMAP session operation becomes a computation in a small
state monad `M` that threads a trace of protocol actions and models thrown
exceptions with `Except`.  The network client (imapflow) is modelled by an
oracle record `ImapOracle` giving the outcome of each protocol primitive.
JavaScript-specific semantics (truthiness of strings, the nullish-coalescing
operator `??`, `Array.prototype.slice` with a negative index) are embedded by
dedicated helpers whose names start with `js`.
-/

namespace EmailMcp

abbrev Err := String

/-- Process environment: a partial map from variable names to values,
modelling `process.env`. -/
abbrev Env := String → Option String

/-- JavaScript truthiness of a `string | undefined` value: `undefined` and
the empty string are falsy, every other string is truthy. -/
def jsTruthyStr : Option String → Bool
  | none => false
  | some s => s != ""

/-- The nullish-coalescing operator `a ?? b` on `string | undefined` values:
`b` is used only when `a` is `undefined` (an empty string is NOT nullish). -/
def jsNullishStr : Option String → Option String → Option String
  | some x, _ => some x
  | none, b => b

/-- String interpolation of a possibly-undefined value in a template
literal: `undefined` renders as the literal text "undefined". -/
def jsTemplateStr : Option String → String
  | none => "undefined"
  | some s => s

/-- `parseInt(s, 10)`: parse the longest prefix of decimal digits, `none`
for NaN (no leading digits).  Sign and leading whitespace are not modelled;
the configuration values of interest are plain digit strings. -/
def parseIntDec (s : String) : Option Nat :=
  let digits := s.toList.takeWhile Char.isDigit
  if digits.isEmpty then none
  else some (digits.foldl (fun n c => n * 10 + (c.toNat - 48)) 0)

/-! ## Connection configuration resolvers (src/imap.ts getImapConfig,
src/smtp.ts getSmtpConfig) -/

/-- ImapFlowOptions as built by `getImapConfig`: `port = none` models a NaN
port (non-numeric IMAP_PORT). -/
structure ImapConfig where
  host : String
  port : Option Nat
  secure : Bool
  rejectUnauthorized : Bool
  auth : Option (String × String)
  deriving Repr, DecidableEq

/-- Embedding of `getImapConfig` (src/imap.ts lines 14-47): host is
mandatory (truthy), security defaults to "ssl", default port is 993 for
"ssl" and 143 otherwise, an explicit IMAP_PORT is parsed with
`parseInt(..., 10)`, `secure` is true exactly for "ssl" (the
`security === "starttls"` branch re-assigns `secure = false`, which the
embedding keeps), and auth is attached when the password is truthy or the
security mode is not "none". -/
def getImapConfig (env : Env) : Except Err ImapConfig :=
  if !jsTruthyStr (env "IMAP_HOST") then .error "IMAP_HOST is required"
  else
    let host := (env "IMAP_HOST").getD ""
    let security := (env "IMAP_SECURITY").getD "ssl"
    let defaultPort : Nat := if security == "ssl" then 993 else 143
    let port := parseIntDec (jsNullishStr (env "IMAP_PORT") (some (toString defaultPort)) |>.getD "")
    let sslVerify := env "SSL_VERIFY" != some "false"
    let username := (jsNullishStr (env "EMAIL_USERNAME") (env "EMAIL_ADDRESS")).getD ""
    let password := (env "EMAIL_PASSWORD").getD ""
    let secure0 := security == "ssl"
    let secure := if security == "starttls" then false else secure0
    let auth := if jsTruthyStr (some password) || security != "none"
      then some (username, password) else none
    .ok { host := host, port := port, secure := secure,
          rejectUnauthorized := sslVerify, auth := auth }

/-- SMTPTransport options as built by `getSmtpConfig`. -/
structure SmtpConfig where
  host : String
  port : Option Nat
  secure : Bool
  requireTLS : Bool
  rejectUnauthorized : Bool
  auth : Option (String × String)
  deriving Repr, DecidableEq

/-- Embedding of `getSmtpConfig` (src/smtp.ts lines 7-37): default port is
465 for "ssl", 587 for "starttls" and 25 otherwise; `secure` is true
exactly for "ssl" and `requireTLS` exactly for "starttls". -/
def getSmtpConfig (env : Env) : Except Err SmtpConfig :=
  if !jsTruthyStr (env "SMTP_HOST") then .error "SMTP_HOST is required"
  else
    let host := (env "SMTP_HOST").getD ""
    let security := (env "SMTP_SECURITY").getD "ssl"
    let defaultPort : Nat :=
      if security == "ssl" then 465 else if security == "starttls" then 587 else 25
    let port := parseIntDec (jsNullishStr (env "SMTP_PORT") (some (toString defaultPort)) |>.getD "")
    let sslVerify := env "SSL_VERIFY" != some "false"
    let username := (jsNullishStr (env "EMAIL_USERNAME") (env "EMAIL_ADDRESS")).getD ""
    let password := (env "EMAIL_PASSWORD").getD ""
    let auth := if jsTruthyStr (some password) || security != "none"
      then some (username, password) else none
    .ok { host := host, port := port, secure := security == "ssl",
          requireTLS := security == "starttls",
          rejectUnauthorized := sslVerify, auth := auth }

/-! ## Pagination engine (src/imap.ts lines 135-141) -/

/-- The sequence window computed inside `listEmails`:
`end = total - (page - 1) * pageSize`, `start = max(1, end - pageSize + 1)`;
`none` when `end < 1` (page beyond the data). -/
def pageWindow (total page pageSize : Nat) : Option (Int × Int) :=
  let en : Int := (total : Int) - ((page : Int) - 1) * (pageSize : Int)
  let st : Int := max 1 (en - (pageSize : Int) + 1)
  if en < 1 then none else some (st, en)

/-! ## Result formatting (src/imap.ts lines 53-66 and 102-111) -/

/-- A `MessageAddressObject`: both fields are optional strings. -/
structure Address where
  name : Option String
  address : Option String
  deriving Repr, DecidableEq

/-- Embedding of `formatAddress`: `undefined` for a missing address object;
a truthy display name yields `"name <address>"` (an undefined address
renders as the text "undefined" inside the template literal); otherwise the
bare address field is returned as-is. -/
def formatAddress : Option Address → Option String
  | none => none
  | some a =>
    if jsTruthyStr a.name then
      some ((a.name.getD "") ++ " <" ++ jsTemplateStr a.address ++ ">")
    else a.address

/-- `.filter(Boolean)` over `(string | undefined)[]`: drops `undefined`
and empty strings. -/
def jsFilterBoolean : List (Option String) → List String
  | [] => []
  | none :: rest => jsFilterBoolean rest
  | some s :: rest => if s.isEmpty then jsFilterBoolean rest else s :: jsFilterBoolean rest

/-- Embedding of `formatAddresses`: `undefined` when the list is missing or
empty (`!addrs?.length`), else each address formatted and falsy entries
dropped. -/
def formatAddresses : Option (List Address) → Option (List String)
  | none => none
  | some addrs =>
    if addrs.length == 0 then none
    else some (jsFilterBoolean (addrs.map (fun a => formatAddress (some a))))

/-- A JavaScript `Date` object as the envelope carries it: `toISOString`
is its ISO-8601 rendering, `jsToString` its `String(...)` rendering. -/
structure DateObj where
  toISOString : String
  jsToString : String
  deriving Repr, DecidableEq

/-- A `MessageEnvelopeObject` restricted to the fields the client reads. -/
structure Envelope where
  date : Option DateObj
  «from» : Option (List Address)
  «to» : Option (List Address)
  cc : Option (List Address)
  subject : Option String
  deriving Repr, DecidableEq

/-- The date expression shared by `messageToSummary` (line 105) and
`fetchEmail` (line 301):
`envelope?.date?.toISOString?.() ?? String(envelope?.date)`.
The left operand is the optional-chained call, the right operand is the
`String(...)` rendering of the same optional value ("undefined" when the
chain is undefined). -/
def jsDateField (env : Option Envelope) : String :=
  let d := env.bind Envelope.date
  ((d.map DateObj.toISOString).getD
    (match d with
     | none => "undefined"
     | some dd => dd.jsToString))

/-! ## Body-structure walker (src/imap.ts lines 163-221) -/

/-- A `MessageStructureObject` restricted to the fields the client reads:
`dispFilename` models `dispositionParameters?.["filename"]` and `nameParam`
models `parameters?.["name"]`; `childNodes` distinguishes an absent field
(`none`) from a present (possibly empty) array (`some`). -/
inductive MStruct : Type where
  | mk : (type : String) → (part : Option String) → (size : Option Nat) →
         (disposition : Option String) → (dispFilename : Option String) →
         (nameParam : Option String) → (childNodes : Option (List MStruct)) → MStruct

def MStruct.type : MStruct → String
  | .mk t _ _ _ _ _ _ => t

def MStruct.part : MStruct → Option String
  | .mk _ p _ _ _ _ _ => p

def MStruct.size : MStruct → Option Nat
  | .mk _ _ sz _ _ _ _ => sz

def MStruct.disposition : MStruct → Option String
  | .mk _ _ _ d _ _ _ => d

def MStruct.dispFilename : MStruct → Option String
  | .mk _ _ _ _ df _ _ => df

def MStruct.nameParam : MStruct → Option String
  | .mk _ _ _ _ _ np _ => np

def MStruct.childNodes : MStruct → Option (List MStruct)
  | .mk _ _ _ _ _ _ c => c

/-- An `AttachmentInfo` record. -/
structure AttachmentInfo where
  filename : Option String
  size : Option Nat
  contentType : String
  deriving Repr, DecidableEq

/-- The entries the node itself contributes in `collectAttachments`'s `walk`
(lines 176-189): a singleton when the disposition is "attachment", or is
"inline" with a truthy `dispositionParameters["filename"] ?? parameters["name"]`;
empty otherwise. -/
def nodeEntry (n : MStruct) : List AttachmentInfo :=
  if n.disposition == some "attachment" || n.disposition == some "inline" then
    if n.disposition == some "attachment"
        || jsTruthyStr (jsNullishStr n.dispFilename n.nameParam) then
      [{ filename := jsNullishStr n.dispFilename n.nameParam,
         size := n.size, contentType := n.type }]
    else []
  else []

mutual

/-- The recursive `walk` of `collectAttachments` (lines 175-195): append the
node's own entry, then visit each child in order. -/
def collectWalk : MStruct → List AttachmentInfo
  | .mk t p sz d df np ch =>
    nodeEntry (.mk t p sz d df np ch) ++
    (match ch with
     | none => []
     | some cs => collectWalkList cs)

def collectWalkList : List MStruct → List AttachmentInfo
  | [] => []
  | c :: cs => collectWalk c ++ collectWalkList cs

end

/-- Embedding of `collectAttachments` (lines 169-199): empty for a missing
structure, else the recursive walk from the root. -/
def collectAttachments : Option MStruct → List AttachmentInfo
  | none => []
  | some st => collectWalk st

mutual

/-- Depth-first pre-order listing of a structure tree: the node itself,
then its children in order. -/
def preorder : MStruct → List MStruct
  | .mk t p sz d df np ch =>
    .mk t p sz d df np ch ::
    (match ch with
     | none => []
     | some cs => preorderList cs)

def preorderList : List MStruct → List MStruct
  | [] => []
  | c :: cs => preorder c ++ preorderList cs

end

mutual

/-- The recursive `walk` of `findPart` (lines 207-218): return this node's
part identifier when its type matches and the part identifier is truthy,
else the first truthy result among the children. -/
def findWalk (ty : String) : MStruct → Option String
  | .mk t p _ _ _ _ ch =>
    if t == ty && jsTruthyStr p then p
    else
      match ch with
      | none => none
      | some cs => findWalkList ty cs

def findWalkList (ty : String) : List MStruct → Option String
  | [] => none
  | c :: cs =>
    let found := findWalk ty c
    if jsTruthyStr found then found else findWalkList ty cs

end

/-- Embedding of `findPart` (lines 201-221): `undefined` for a missing
structure, else the recursive walk from the root. -/
def findPart (structure_ : Option MStruct) (ty : String) : Option String :=
  match structure_ with
  | none => none
  | some st => findWalk ty st

/-! ## Message records and summaries (src/imap.ts lines 93-111) -/

/-- A `FetchMessageObject` restricted to the fields the client reads. -/
structure FetchMsg where
  uid : Nat
  envelope : Option Envelope
  flags : Option (List String)
  bodyStructure : Option MStruct

/-- An `EmailSummary` record.  The `date` field is a plain `String` because
the producing expression (`... ?? String(...)`) always yields a string. -/
structure EmailSummary where
  uid : Nat
  date : String
  «from» : Option (List String)
  «to» : Option (List String)
  subject : Option String
  flags : List String
  deriving Repr, DecidableEq

/-- Embedding of `messageToSummary` (lines 102-111). -/
def messageToSummary (m : FetchMsg) : EmailSummary :=
  { uid := m.uid,
    date := jsDateField m.envelope,
    «from» := formatAddresses (m.envelope.bind Envelope.from),
    «to» := formatAddresses (m.envelope.bind Envelope.to),
    subject := m.envelope.bind Envelope.subject,
    flags := m.flags.getD [] }

/-- Insert a message into a list kept in descending uid order, as produced
by `messages.sort((a, b) => b.uid - a.uid)`. -/
def insertUidDesc (m : FetchMsg) : List FetchMsg → List FetchMsg
  | [] => [m]
  | x :: xs => if x.uid ≤ m.uid then m :: x :: xs else x :: insertUidDesc m xs

/-- Sorting by uid descending (the `sort((a, b) => b.uid - a.uid)` calls at
lines 150 and 356). -/
def sortUidDesc : List FetchMsg → List FetchMsg
  | [] => []
  | m :: ms => insertUidDesc m (sortUidDesc ms)

/-- `uids.slice(-n)`: the last `n` elements (the whole list for `n = 0`,
because `slice(-0)` is `slice(0)`, and also when `n` exceeds the length). -/
def jsSliceNeg (l : List Nat) (n : Nat) : List Nat :=
  if n = 0 then l else l.drop (l.length - n)

/-! ## Search criteria translation (src/imap.ts lines 316-343) -/

/-- The `SearchCriteria` input record. -/
structure SearchCriteria where
  «from» : Option String
  «to» : Option String
  subject : Option String
  since : Option String
  before : Option String
  body : Option String
  seen : Option Bool
  deriving Repr, DecidableEq

/-- The protocol `SearchObject` built from the criteria. -/
structure SearchQuery where
  «from» : Option String
  «to» : Option String
  subject : Option String
  since : Option String
  before : Option String
  body : Option String
  seen : Option Bool
  deriving Repr, DecidableEq

/-- The query construction of `searchEmails` (lines 336-343): each string
field is copied when truthy; `seen` is copied whenever it is defined
(`criteria.seen !== undefined`), including `false`. -/
def buildQuery (c : SearchCriteria) : SearchQuery :=
  { «from» := if jsTruthyStr c.from then c.from else none,
    «to» := if jsTruthyStr c.to then c.to else none,
    subject := if jsTruthyStr c.subject then c.subject else none,
    since := if jsTruthyStr c.since then c.since else none,
    before := if jsTruthyStr c.before then c.before else none,
    body := if jsTruthyStr c.body then c.body else none,
    seen := c.seen }

/-! ## The session monad and the protocol oracle -/

/-- The protocol actions a session issues, recorded in order. -/
inductive Action : Type where
  | connect
  | mailboxOpen (mailbox : String) (readOnly : Bool)
  | listCmd
  | fetchAllSeq (first last_ : Int)
  | fetchAllUids (uids : List Nat)
  | fetchOne (uid : Nat)
  | download (uid : Nat) (part : Option String)
  | searchCmd (q : SearchQuery)
  | messageMove (uid : Nat) (dest : String)
  | messageDelete (uid : Nat)
  | logout
  deriving Repr, DecidableEq

/-- The session monad: a computation threads the trace of issued protocol
actions and models a thrown exception with `Except`. -/
def M (α : Type) : Type := List Action → Except Err α × List Action

def mpure {α : Type} (a : α) : M α := fun s => (.ok a, s)

def mbind {α β : Type} (m : M α) (f : α → M β) : M β := fun s =>
  match m s with
  | (.ok a, s') => f a s'
  | (.error e, s') => (.error e, s')

instance : Monad M where
  pure := mpure
  bind := mbind

def throwM {α : Type} (e : Err) : M α := fun s => (.error e, s)

/-- Issue one protocol action with the oracle-supplied outcome. -/
def prim {α : Type} (a : Action) (r : Except Err α) : M α := fun s => (r, s ++ [a])

/-- The mailbox status object returned by `mailboxOpen`. -/
structure MailboxObj where
  «exists» : Nat
  deriving Repr, DecidableEq

/-- A `ListResponse` record from `client.list()`. -/
structure ListResp where
  name : String
  path : String
  delimiter : String
  flags : List String
  specialUse : Option String
  deriving Repr, DecidableEq

/-- The `MailboxInfo` output record of `listMailboxes`. -/
structure MailboxInfo where
  name : String
  path : String
  delimiter : String
  flags : List String
  specialUse : Option String
  deriving Repr, DecidableEq

/-- The move response object: `uidMap` maps source UIDs to destination
UIDs, modelled as an association list. -/
structure MoveResp where
  uidMap : Option (List (Nat × Nat))

/-- The outcome of every protocol primitive, modelling the imapflow client
a session drives.  `downloadR uid part` is the UTF-8 decoded content of the
downloaded stream (`part = none` downloads the whole body). -/
structure ImapOracle where
  connectR : Except Err Unit
  mailboxOpenR : String → Bool → Except Err MailboxObj
  listR : Except Err (List ListResp)
  fetchAllSeqR : Int → Int → Except Err (List FetchMsg)
  fetchAllUidsR : List Nat → Except Err (List FetchMsg)
  fetchOneR : Nat → Except Err (Option FetchMsg)
  downloadR : Nat → Option String → Except Err String
  searchR : SearchQuery → Except Err (Option (List Nat))
  messageMoveR : Nat → String → Except Err (Option MoveResp)
  messageDeleteR : Nat → Except Err Bool
  logoutR : Except Err Unit

def connectA (o : ImapOracle) : M Unit := prim .connect o.connectR

def mailboxOpenA (o : ImapOracle) (mailbox : String) (readOnly : Bool) : M MailboxObj :=
  prim (.mailboxOpen mailbox readOnly) (o.mailboxOpenR mailbox readOnly)

def listA (o : ImapOracle) : M (List ListResp) := prim .listCmd o.listR

def fetchAllSeqA (o : ImapOracle) (first last_ : Int) : M (List FetchMsg) :=
  prim (.fetchAllSeq first last_) (o.fetchAllSeqR first last_)

def fetchAllUidsA (o : ImapOracle) (uids : List Nat) : M (List FetchMsg) :=
  prim (.fetchAllUids uids) (o.fetchAllUidsR uids)

def fetchOneA (o : ImapOracle) (uid : Nat) : M (Option FetchMsg) :=
  prim (.fetchOne uid) (o.fetchOneR uid)

def downloadA (o : ImapOracle) (uid : Nat) (part : Option String) : M String :=
  prim (.download uid part) (o.downloadR uid part)

def searchA (o : ImapOracle) (q : SearchQuery) : M (Option (List Nat)) :=
  prim (.searchCmd q) (o.searchR q)

def messageMoveA (o : ImapOracle) (uid : Nat) (dest : String) : M (Option MoveResp) :=
  prim (.messageMove uid dest) (o.messageMoveR uid dest)

def messageDeleteA (o : ImapOracle) (uid : Nat) : M Bool :=
  prim (.messageDelete uid) (o.messageDeleteR uid)

def logoutA (o : ImapOracle) : M Unit := prim .logout o.logoutR

/-- `try { body } finally { cleanup }`: the cleanup always runs; if the
cleanup itself throws, its exception replaces the body's outcome. -/
def tryFinally {α : Type} (body : M α) (cleanup : M Unit) : M α := fun s =>
  let r1 := body s
  let r2 := cleanup r1.snd
  match r2.fst with
  | .ok _ => (r1.fst, r2.snd)
  | .error e => (.error e, r2.snd)

/-- `act.catch(() => {})`: the outcome of `act` is discarded and replaced
by success. -/
def catchSwallow (act : M Unit) : M Unit := fun s => (.ok (), (act s).snd)

/-! ## The six mailbox-session operations (src/imap.ts) -/

/-- The `try` block of `listMailboxes` (lines 78-87). -/
def listMailboxesBody (o : ImapOracle) : M (List MailboxInfo) := do
  let _ ← connectA o
  let list ← listA o
  pure (list.map fun m =>
    { name := m.name, path := m.path, delimiter := m.delimiter,
      flags := m.flags, specialUse := m.specialUse })

/-- Embedding of `listMailboxes` (lines 76-91): the body under a
`finally` that attempts a logout and swallows its failure. -/
def listMailboxes (o : ImapOracle) : M (List MailboxInfo) :=
  tryFinally (listMailboxesBody o) (catchSwallow (logoutA o))

/-- The `ListEmailsResult` output record. -/
structure ListEmailsResult where
  total : Nat
  page : Nat
  pageSize : Nat
  emails : List EmailSummary
  deriving Repr, DecidableEq

/-- The `try` block of `listEmails` (lines 126-157): read the total, return
an empty page for an empty mailbox, compute the sequence window, return an
empty page beyond the data, else fetch the window and sort by uid
descending. -/
def listEmailsBody (o : ImapOracle) (mailbox : String) (page pageSize : Nat) :
    M ListEmailsResult := do
  let _ ← connectA o
  let mb ← mailboxOpenA o mailbox true
  let total := mb.exists
  if total == 0 then
    pure { total := total, page := page, pageSize := pageSize, emails := [] }
  else
    match pageWindow total page pageSize with
    | none =>
      pure { total := total, page := page, pageSize := pageSize, emails := [] }
    | some (st, en) => do
      let messages ← fetchAllSeqA o st en
      pure { total := total, page := page, pageSize := pageSize,
             emails := (sortUidDesc messages).map messageToSummary }

/-- Embedding of `listEmails` (lines 120-161). -/
def listEmails (o : ImapOracle) (mailbox : String) (page pageSize : Nat) :
    M ListEmailsResult :=
  tryFinally (listEmailsBody o mailbox page pageSize) (catchSwallow (logoutA o))

/-- The `FetchEmailResult` output record. -/
structure FetchEmailResult where
  uid : Nat
  date : String
  «from» : Option (List String)
  «to» : Option (List String)
  cc : Option (List String)
  subject : Option String
  flags : List String
  textBody : Option String
  htmlBody : Option String
  attachments : List AttachmentInfo
  deriving Repr, DecidableEq

/-- The result record fetchEmail builds (lines 299-310), parameterized by
the final text/html body pair. -/
def mkFetchResult (msg : FetchMsg) (tb hb : Option String) : FetchEmailResult :=
  { uid := msg.uid, date := jsDateField msg.envelope,
    «from» := formatAddresses (msg.envelope.bind Envelope.from),
    «to» := formatAddresses (msg.envelope.bind Envelope.to),
    cc := formatAddresses (msg.envelope.bind Envelope.cc),
    subject := msg.envelope.bind Envelope.subject,
    flags := msg.flags.getD [],
    textBody := tb, htmlBody := hb,
    attachments := collectAttachments msg.bodyStructure }

/-- The `try` block of `fetchEmail` (lines 241-310): fetch the message by
UID (not-found throws), collect attachments, locate the first text/plain
and text/html parts and download each located one, and when neither is
located and `bodyStructure?.childNodes` is not truthy, download the whole
body and assign it by the declared top-level content type. -/
def fetchEmailBody (o : ImapOracle) (mailbox : String) (uid : Nat) :
    M FetchEmailResult :=
  mbind (connectA o) fun _ =>
  mbind (mailboxOpenA o mailbox true) fun _ =>
  mbind (fetchOneA o uid) fun msgOpt =>
  match msgOpt with
  | none => throwM s!"Message with UID {uid} not found"
  | some msg =>
    let textPart := findPart msg.bodyStructure "text/plain"
    let htmlPart := findPart msg.bodyStructure "text/html"
    mbind (if jsTruthyStr textPart then
             mbind (downloadA o uid textPart) fun s => mpure (some s)
           else mpure none) fun textBody =>
    mbind (if jsTruthyStr htmlPart then
             mbind (downloadA o uid htmlPart) fun s => mpure (some s)
           else mpure none) fun htmlBody =>
    mbind (if !jsTruthyStr textPart && !jsTruthyStr htmlPart
              && !(msg.bodyStructure.bind MStruct.childNodes).isSome then
             mbind (downloadA o uid none) fun fullSource =>
               if (msg.bodyStructure.map MStruct.type) == some "text/html" then
                 mpure (textBody, some fullSource)
               else mpure (some fullSource, htmlBody)
           else mpure (textBody, htmlBody)) fun bodies =>
    mpure (mkFetchResult msg bodies.fst bodies.snd)

/-- Embedding of `fetchEmail` (lines 236-314). -/
def fetchEmail (o : ImapOracle) (mailbox : String) (uid : Nat) :
    M FetchEmailResult :=
  tryFinally (fetchEmailBody o mailbox uid) (catchSwallow (logoutA o))

/-- The `try` block of `searchEmails` (lines 332-358): build the query,
search for matching UIDs, return empty on a missing or empty result, else
fetch the last `limit` UIDs and sort by uid descending. -/
def searchEmailsBody (o : ImapOracle) (mailbox : String)
    (criteria : SearchCriteria) (limit : Nat) : M (List EmailSummary) := do
  let _ ← connectA o
  let _ ← mailboxOpenA o mailbox true
  let query := buildQuery criteria
  let uidsOpt ← searchA o query
  match uidsOpt with
  | none => pure []
  | some uids =>
    if uids.length == 0 then pure []
    else do
      let selectedUids := jsSliceNeg uids limit
      let messages ← fetchAllUidsA o selectedUids
      pure ((sortUidDesc messages).map messageToSummary)

/-- Embedding of `searchEmails` (lines 326-362). -/
def searchEmails (o : ImapOracle) (mailbox : String)
    (criteria : SearchCriteria) (limit : Nat) : M (List EmailSummary) :=
  tryFinally (searchEmailsBody o mailbox criteria limit) (catchSwallow (logoutA o))

/-- The `MoveEmailResult` output record. -/
structure MoveEmailResult where
  uid : Nat
  «from» : String
  «to» : String
  newUid : Option Nat
  deriving Repr, DecidableEq

/-- The `try` block of `moveEmail` (lines 377-400): a falsy move response
throws; `newUid` is looked up in the uidMap when one is present. -/
def moveEmailBody (o : ImapOracle) (mailbox : String) (uid : Nat)
    (destination : String) : M MoveEmailResult := do
  let _ ← connectA o
  let _ ← mailboxOpenA o mailbox false
  let resOpt ← messageMoveA o uid destination
  match resOpt with
  | none => throwM s!"Failed to move message UID {uid} to {destination}"
  | some r =>
    pure { uid := uid, «from» := mailbox, «to» := destination,
           newUid := r.uidMap.bind (List.lookup uid) }

/-- Embedding of `moveEmail` (lines 371-404). -/
def moveEmail (o : ImapOracle) (mailbox : String) (uid : Nat)
    (destination : String) : M MoveEmailResult :=
  tryFinally (moveEmailBody o mailbox uid destination) (catchSwallow (logoutA o))

/-- The `DeleteEmailResult` output record. -/
structure DeleteEmailResult where
  uid : Nat
  mailbox : String
  deleted : Bool
  deriving Repr, DecidableEq

/-- The `try` block of `deleteEmail` (lines 411-417). -/
def deleteEmailBody (o : ImapOracle) (mailbox : String) (uid : Nat) :
    M DeleteEmailResult := do
  let _ ← connectA o
  let _ ← mailboxOpenA o mailbox false
  let result ← messageDeleteA o uid
  pure { uid := uid, mailbox := mailbox, deleted := result }

/-- Embedding of `deleteEmail` (lines 406-421). -/
def deleteEmail (o : ImapOracle) (mailbox : String) (uid : Nat) :
    M DeleteEmailResult :=
  tryFinally (deleteEmailBody o mailbox uid) (catchSwallow (logoutA o))

/-- A single-part text/html message with no envelope. -/
def htmlOnlyMsg : FetchMsg :=
  { uid := 42, envelope := none, flags := none,
    bodyStructure := some (.mk "text/html" none none none none none none) }

/-- A sample oracle serving `htmlOnlyMsg` for any fetched uid. -/
def fetchSampleOracle : ImapOracle where
  connectR := .ok ()
  mailboxOpenR := fun _ _ => .ok { «exists» := 1 }
  listR := .ok []
  fetchAllSeqR := fun _ _ => .ok []
  fetchAllUidsR := fun _ => .ok []
  fetchOneR := fun _ => .ok (some htmlOnlyMsg)
  downloadR := fun _ _ => .ok "<p>hello</p>"
  searchR := fun _ => .ok none
  messageMoveR := fun _ _ => .ok none
  messageDeleteR := fun _ => .ok false
  logoutR := .ok ()

instance : IsTotal FetchMsg (fun a b => b.uid ≤ a.uid) :=
  ⟨fun a b => Nat.le_total b.uid a.uid⟩

instance : IsTrans FetchMsg (fun a b => b.uid ≤ a.uid) :=
  ⟨fun _ _ _ h1 h2 => le_trans h2 h1⟩

instance : IsAntisymm Nat (fun a b => b ≤ a) :=
  ⟨fun _ _ h1 h2 => Nat.le_antisymm h2 h1⟩

/-! ## Sample data and auxiliary definitions -/

/-- A sample oracle for an empty mailbox: every primitive succeeds and the
selected mailbox reports zero messages. -/
def emptyMailboxOracle : ImapOracle where
  connectR := .ok ()
  mailboxOpenR := fun _ _ => .ok { «exists» := 0 }
  listR := .ok []
  fetchAllSeqR := fun _ _ => .ok []
  fetchAllUidsR := fun _ => .ok []
  fetchOneR := fun _ => .ok none
  downloadR := fun _ _ => .ok ""
  searchR := fun _ => .ok none
  messageMoveR := fun _ _ => .ok none
  messageDeleteR := fun _ => .ok false
  logoutR := .ok ()

/-- The empty search criteria record. -/
def emptyCriteria : SearchCriteria :=
  { «from» := none, «to» := none, subject := none, since := none,
    before := none, body := none, seen := none }

/-- A bare fetched message carrying only a uid. -/
def bareMsg (u : Nat) : FetchMsg :=
  { uid := u, envelope := none, flags := none, bodyStructure := none }

/-- A sample oracle for the search claim: three matches [3, 7, 10] and a
fetch that delivers the two selected messages out of order. -/
def searchSampleOracle : ImapOracle where
  connectR := .ok ()
  mailboxOpenR := fun _ _ => .ok { «exists» := 3 }
  listR := .ok []
  fetchAllSeqR := fun _ _ => .ok []
  fetchAllUidsR := fun _ => .ok [bareMsg 10, bareMsg 7]
  fetchOneR := fun _ => .ok none
  downloadR := fun _ _ => .ok ""
  searchR := fun _ => .ok (some [3, 7, 10])
  messageMoveR := fun _ _ => .ok none
  messageDeleteR := fun _ => .ok false
  logoutR := .ok ()

/-- A sample oracle for the pagination claims: two messages, delivered by
the fetch in ascending uid order. -/
def pageSampleOracle : ImapOracle where
  connectR := .ok ()
  mailboxOpenR := fun _ _ => .ok { «exists» := 2 }
  listR := .ok []
  fetchAllSeqR := fun _ _ => .ok [bareMsg 5, bareMsg 9]
  fetchAllUidsR := fun _ => .ok []
  fetchOneR := fun _ => .ok none
  downloadR := fun _ _ => .ok ""
  searchR := fun _ => .ok none
  messageMoveR := fun _ _ => .ok none
  messageDeleteR := fun _ => .ok false
  logoutR := .ok ()

/-- Per-node entries of a node list, in order. -/
def entriesOf : List MStruct → List AttachmentInfo
  | [] => []
  | n :: rest => nodeEntry n ++ entriesOf rest

/-- The spec's example tree: multipart/alternative with a text/plain part
"1" and a text/html part "2". -/
def altTree : MStruct :=
  .mk "multipart/alternative" none none none none none
    (some [.mk "text/plain" (some "1") none none none none none,
           .mk "text/html" (some "2") none none none none none])

/-! ## Helper lemmas -/

theorem bind_def {α β : Type} (m : M α) (f : α → M β) : m >>= f = mbind m f := rfl

theorem pure_def {α : Type} (a : α) : (pure a : M α) = mpure a := rfl

/-- Sequencing after a successful primitive: the action is recorded and the
continuation receives the value. -/
theorem mbind_prim_ok {α β : Type} (a : Action) (v : α) (k : α → M β)
    (s : List Action) : mbind (prim a (.ok v)) k s = k v (s ++ [a]) := rfl

theorem mbind_mpure {α β : Type} (a : α) (k : α → M β) (s : List Action) :
    mbind (mpure a) k s = k a s := rfl

/-- Sequencing after a failing primitive: the action is recorded and the
error short-circuits. -/
theorem mbind_prim_error {α β : Type} (a : Action) (e : Err) (k : α → M β)
    (s : List Action) : mbind (prim a (.error e)) k s = (.error e, s ++ [a]) := rfl

/-- Running a body under the source's `finally { await client.logout().catch(() => {}) }`
yields the body's own outcome and a trace extended with the logout. -/
theorem tryFinally_catchSwallow {α : Type} (body : M α) (o : ImapOracle)
    (s : List Action) :
    tryFinally body (catchSwallow (logoutA o)) s =
      ((body s).fst, (body s).snd ++ [Action.logout]) := by
  simp [tryFinally, catchSwallow, logoutA, prim]

theorem mem_logout_tryFinally {α : Type} (body : M α) (o : ImapOracle)
    (s : List Action) :
    Action.logout ∈ (tryFinally body (catchSwallow (logoutA o)) s).snd := by
  simp [tryFinally_catchSwallow]

/-! ## Claim theorems -/

/-- C1: the pagination engine inside listEmails computes
`end = N - (P-1)*S` and `start = max(1, end - S + 1)`; `end < 1` means the
page is beyond the data (empty), a partially-beyond page yields a short
window (`end - start + 1 = min S end`, never an error), the fetch issued by
`listEmails` is exactly that window, and for N=95, S=20 page 1 is [76,95],
page 5 is [1,15] and page 6 is empty. -/
theorem c1_pagination_engine (N P S : Nat) (hP : 1 ≤ P) (hS : 1 ≤ S) :
    (pageWindow N P S = none ↔ (N : Int) - ((P : Int) - 1) * S < 1) ∧
    (∀ st en : Int, pageWindow N P S = some (st, en) →
        en = (N : Int) - ((P : Int) - 1) * S ∧
        st = max 1 (en - (S : Int) + 1) ∧
        st ≤ en ∧ en - st + 1 = min (S : Int) en) ∧
    (∀ (o : ImapOracle) (mailbox : String) (mb : MailboxObj) (st en : Int),
        o.connectR = .ok () → o.mailboxOpenR mailbox true = .ok mb →
        mb.exists = N → pageWindow N P S = some (st, en) →
        Action.fetchAllSeq st en ∈ (listEmails o mailbox P S []).snd) ∧
    pageWindow 95 1 20 = some (76, 95) ∧
    pageWindow 95 5 20 = some (1, 15) ∧
    pageWindow 95 6 20 = none := by
  refine ⟨?_, ?_, ?_, by decide, by decide, by decide⟩
  · unfold pageWindow
    dsimp only
    split
    · rename_i hlt
      simpa using hlt
    · rename_i hge
      simp only [reduceCtorEq, false_iff]
      exact hge
  · intro st en h
    unfold pageWindow at h
    dsimp only at h
    split at h
    · exact absurd h (by simp)
    · rename_i hen
      have hpair := Option.some.inj h
      have hst : st = max 1 ((N : Int) - ((P : Int) - 1) * S - (S : Int) + 1) :=
        (congrArg Prod.fst hpair).symm
      have hen2 : en = (N : Int) - ((P : Int) - 1) * S :=
        (congrArg Prod.snd hpair).symm
      push_neg at hen
      subst hst
      subst hen2
      refine ⟨rfl, by rw [max_comm], ?_, ?_⟩ <;> omega
  · intro o mailbox mb st en hc ho hex hpw
    have hN : N ≠ 0 := by
      have hpw' := hpw
      unfold pageWindow at hpw'
      dsimp only at hpw'
      split at hpw'
      · exact absurd hpw' (by simp)
      · rename_i hen
        push_neg at hen
        intro h0
        rw [h0] at hen
        have hnn : (0 : Int) ≤ ((P : Int) - 1) * S := by
          have h1 : (1 : Int) ≤ (P : Int) := by exact_mod_cast hP
          have h2 : (0 : Int) ≤ (S : Int) := by positivity
          nlinarith
        omega
    unfold listEmails
    rw [tryFinally_catchSwallow]
    simp only [List.mem_append]
    left
    unfold listEmailsBody
    simp only [bind_def, mbind, connectA, mailboxOpenA, fetchAllSeqA, prim, hc, ho, hex,
      pure_def, mpure]
    have hb : (N == 0) = false := by simpa using hN
    simp only [hb, Bool.false_eq_true, if_false, hpw]
    cases hfr : o.fetchAllSeqR st en <;> simp [hfr, mbind, prim, mpure]

/-- Witness for C1 at N=95, P=1, S=20. -/
theorem c1_pagination_engine_witness :
    1 ≤ 1 ∧ 1 ≤ 20 ∧ pageWindow 95 1 20 = some (76, 95) := by
  refine ⟨by decide, by decide, ?_⟩
  exact (c1_pagination_engine 95 1 20 (by decide) (by decide)).2.2.2.1

/-- C7: with no explicit port, IMAP resolves to 993 for ssl and 143
otherwise (starttls or none, no auto-promotion), SMTP resolves to 465/ssl,
587/starttls, 25/none; an unset security variable defaults to ssl (secure
connection, ssl default port); an explicitly supplied port always wins. -/
theorem c7_default_port_table (env : Env)
    (hih : jsTruthyStr (env "IMAP_HOST") = true)
    (hsh : jsTruthyStr (env "SMTP_HOST") = true) :
    ∃ icfg scfg, getImapConfig env = .ok icfg ∧ getSmtpConfig env = .ok scfg ∧
      ((env "IMAP_SECURITY" = none → env "IMAP_PORT" = none →
          icfg.port = some 993 ∧ icfg.secure = true) ∧
       (env "IMAP_SECURITY" = some "ssl" → env "IMAP_PORT" = none →
          icfg.port = some 993) ∧
       (env "IMAP_SECURITY" = some "starttls" → env "IMAP_PORT" = none →
          icfg.port = some 143) ∧
       (env "IMAP_SECURITY" = some "none" → env "IMAP_PORT" = none →
          icfg.port = some 143) ∧
       (∀ s n, env "IMAP_PORT" = some s → parseIntDec s = some n →
          icfg.port = some n)) ∧
      ((env "SMTP_SECURITY" = none → env "SMTP_PORT" = none →
          scfg.port = some 465 ∧ scfg.secure = true) ∧
       (env "SMTP_SECURITY" = some "ssl" → env "SMTP_PORT" = none →
          scfg.port = some 465) ∧
       (env "SMTP_SECURITY" = some "starttls" → env "SMTP_PORT" = none →
          scfg.port = some 587) ∧
       (env "SMTP_SECURITY" = some "none" → env "SMTP_PORT" = none →
          scfg.port = some 25) ∧
       (∀ s n, env "SMTP_PORT" = some s → parseIntDec s = some n →
          scfg.port = some n)) := by
  unfold getImapConfig getSmtpConfig
  rw [hih, hsh]
  dsimp only
  refine ⟨_, _, rfl, rfl, ⟨?_, ?_, ?_, ?_, ?_⟩, ⟨?_, ?_, ?_, ?_, ?_⟩⟩ <;>
    first
    | (intro h1 h2
       rw [h1, h2]
       dsimp only
       decide)
    | (intro s n h1 h2
       rw [h1]
       dsimp only
       simpa [jsNullishStr] using h2)

/-- Witness for C7 on a concrete environment that sets only the two hosts. -/
theorem c7_default_port_table_witness :
    jsTruthyStr ((fun k => if k == "IMAP_HOST" || k == "SMTP_HOST"
        then some "mail.example.org" else none : Env) "IMAP_HOST") = true ∧
    ∃ icfg scfg,
      getImapConfig (fun k => if k == "IMAP_HOST" || k == "SMTP_HOST"
        then some "mail.example.org" else none) = .ok icfg ∧
      getSmtpConfig (fun k => if k == "IMAP_HOST" || k == "SMTP_HOST"
        then some "mail.example.org" else none) = .ok scfg ∧
      (((fun k => if k == "IMAP_HOST" || k == "SMTP_HOST"
          then some "mail.example.org" else none : Env) "IMAP_SECURITY" = none →
        (fun k => if k == "IMAP_HOST" || k == "SMTP_HOST"
          then some "mail.example.org" else none : Env) "IMAP_PORT" = none →
          icfg.port = some 993 ∧ icfg.secure = true)) := by
  refine ⟨by decide, ?_⟩
  obtain ⟨icfg, scfg, h1, h2, hi, _⟩ :=
    c7_default_port_table (fun k => if k == "IMAP_HOST" || k == "SMTP_HOST"
      then some "mail.example.org" else none) (by decide) (by decide)
  exact ⟨icfg, scfg, h1, h2, hi.1⟩

/-- A body wrapped in `try/finally` with a swallowed logout: the outcome is
the body's own, the logout is always attempted, and the outcome does not
depend on the logout result. -/
theorem logout_swallowed {α : Type} (b : ImapOracle → M α) (o : ImapOracle)
    (s : List Action) (hb : ∀ r', b { o with logoutR := r' } = b o) :
    (tryFinally (b o) (catchSwallow (logoutA o)) s).fst = (b o s).fst ∧
    Action.logout ∈ (tryFinally (b o) (catchSwallow (logoutA o)) s).snd ∧
    ∀ r', (tryFinally (b { o with logoutR := r' })
             (catchSwallow (logoutA { o with logoutR := r' })) s).fst =
          (tryFinally (b o) (catchSwallow (logoutA o)) s).fst := by
  refine ⟨by rw [tryFinally_catchSwallow], mem_logout_tryFinally _ _ _, ?_⟩
  intro r'
  rw [tryFinally_catchSwallow, tryFinally_catchSwallow, hb]

/-- C2: every mailbox-session operation attempts a logout on every exit
path (the logout action is always in the trace), the outcome is always the
try-block's own outcome (so a failed earlier step surfaces unchanged), and
the logout outcome never replaces or masks it (the result is unchanged
under any substitution of the logout outcome). -/
theorem c2_logout_on_every_exit_path (o : ImapOracle) (s : List Action)
    (mailbox destination : String) (page pageSize uid limit : Nat)
    (criteria : SearchCriteria) :
    ((listMailboxes o s).fst = (listMailboxesBody o s).fst ∧
      Action.logout ∈ (listMailboxes o s).snd ∧
      ∀ r', (listMailboxes { o with logoutR := r' } s).fst =
            (listMailboxes o s).fst) ∧
    ((listEmails o mailbox page pageSize s).fst =
        (listEmailsBody o mailbox page pageSize s).fst ∧
      Action.logout ∈ (listEmails o mailbox page pageSize s).snd ∧
      ∀ r', (listEmails { o with logoutR := r' } mailbox page pageSize s).fst =
            (listEmails o mailbox page pageSize s).fst) ∧
    ((fetchEmail o mailbox uid s).fst = (fetchEmailBody o mailbox uid s).fst ∧
      Action.logout ∈ (fetchEmail o mailbox uid s).snd ∧
      ∀ r', (fetchEmail { o with logoutR := r' } mailbox uid s).fst =
            (fetchEmail o mailbox uid s).fst) ∧
    ((searchEmails o mailbox criteria limit s).fst =
        (searchEmailsBody o mailbox criteria limit s).fst ∧
      Action.logout ∈ (searchEmails o mailbox criteria limit s).snd ∧
      ∀ r', (searchEmails { o with logoutR := r' } mailbox criteria limit s).fst =
            (searchEmails o mailbox criteria limit s).fst) ∧
    ((moveEmail o mailbox uid destination s).fst =
        (moveEmailBody o mailbox uid destination s).fst ∧
      Action.logout ∈ (moveEmail o mailbox uid destination s).snd ∧
      ∀ r', (moveEmail { o with logoutR := r' } mailbox uid destination s).fst =
            (moveEmail o mailbox uid destination s).fst) ∧
    ((deleteEmail o mailbox uid s).fst = (deleteEmailBody o mailbox uid s).fst ∧
      Action.logout ∈ (deleteEmail o mailbox uid s).snd ∧
      ∀ r', (deleteEmail { o with logoutR := r' } mailbox uid s).fst =
            (deleteEmail o mailbox uid s).fst) :=
  ⟨logout_swallowed (fun oo => listMailboxesBody oo) o s (fun _ => rfl),
   logout_swallowed (fun oo => listEmailsBody oo mailbox page pageSize) o s (fun _ => rfl),
   logout_swallowed (fun oo => fetchEmailBody oo mailbox uid) o s (fun _ => rfl),
   logout_swallowed (fun oo => searchEmailsBody oo mailbox criteria limit) o s (fun _ => rfl),
   logout_swallowed (fun oo => moveEmailBody oo mailbox uid destination) o s (fun _ => rfl),
   logout_swallowed (fun oo => deleteEmailBody oo mailbox uid) o s (fun _ => rfl)⟩

/-- C9: for a mailbox with zero messages, listEmails returns the empty page
immediately for any page and pageSize — its full trace is connect, open,
logout, so no fetch of any kind was attempted. -/
theorem c9_empty_mailbox_no_fetch (o : ImapOracle) (mailbox : String)
    (page pageSize : Nat) (mb : MailboxObj)
    (hc : o.connectR = .ok ()) (ho : o.mailboxOpenR mailbox true = .ok mb)
    (hex : mb.exists = 0) :
    listEmails o mailbox page pageSize [] =
      (.ok { total := 0, page := page, pageSize := pageSize, emails := [] },
       [Action.connect, Action.mailboxOpen mailbox true, Action.logout]) ∧
    ∀ a ∈ (listEmails o mailbox page pageSize []).snd,
      (∀ f l, a ≠ Action.fetchAllSeq f l) ∧ (∀ us, a ≠ Action.fetchAllUids us) := by
  have h1 : listEmails o mailbox page pageSize [] =
      (.ok { total := 0, page := page, pageSize := pageSize, emails := [] },
       [Action.connect, Action.mailboxOpen mailbox true, Action.logout]) := by
    unfold listEmails
    rw [tryFinally_catchSwallow]
    unfold listEmailsBody
    simp [bind_def, mbind, connectA, mailboxOpenA, prim, hc, ho, hex, pure_def, mpure]
  refine ⟨h1, ?_⟩
  rw [h1]
  intro a ha
  simp only [List.mem_cons, List.mem_singleton, List.not_mem_nil, or_false] at ha
  rcases ha with rfl | rfl | rfl <;> exact ⟨fun _ _ => by simp, fun _ => by simp⟩

/-- Witness for C9 on a concrete oracle whose mailbox is empty. -/
theorem c9_empty_mailbox_no_fetch_witness :
    emptyMailboxOracle.connectR = .ok () ∧
    listEmails emptyMailboxOracle "INBOX" 3 20 [] =
      (.ok { total := 0, page := 3, pageSize := 20, emails := [] },
       [Action.connect, Action.mailboxOpen "INBOX" true, Action.logout]) := by
  refine ⟨rfl, ?_⟩
  exact (c9_empty_mailbox_no_fetch emptyMailboxOracle "INBOX" 3 20
    { «exists» := 0 } rfl rfl rfl).1

/-! ## Sorting lemmas for the uid-descending sort -/

theorem insertUidDesc_eq_orderedInsert (m : FetchMsg) (l : List FetchMsg) :
    insertUidDesc m l = List.orderedInsert (fun a b => b.uid ≤ a.uid) m l := by
  induction l with
  | nil => rfl
  | cons x xs ih => simp [insertUidDesc, List.orderedInsert, ih]

theorem sortUidDesc_eq_insertionSort (l : List FetchMsg) :
    sortUidDesc l = List.insertionSort (fun a b => b.uid ≤ a.uid) l := by
  induction l with
  | nil => rfl
  | cons m ms ih =>
    simp [sortUidDesc, List.insertionSort, ih, insertUidDesc_eq_orderedInsert]

theorem sortUidDesc_perm (l : List FetchMsg) : List.Perm (sortUidDesc l) l := by
  rw [sortUidDesc_eq_insertionSort]
  exact List.perm_insertionSort _ l

theorem sortUidDesc_sorted (l : List FetchMsg) :
    (sortUidDesc l).Sorted (fun a b => b.uid ≤ a.uid) := by
  rw [sortUidDesc_eq_insertionSort]
  exact List.sorted_insertionSort _ l

theorem sortUidDesc_uid_sorted (l : List FetchMsg) :
    ((sortUidDesc l).map FetchMsg.uid).Sorted (fun a b : Nat => b ≤ a) := by
  rw [List.Sorted, List.pairwise_map]
  exact sortUidDesc_sorted l

/-- C8: whenever listEmails succeeds, the returned emails list is sorted by
uid descending — whatever set of messages the fetch returned and in
whatever order the protocol delivered them. -/
theorem c8_list_emails_sorted_desc (o : ImapOracle) (mailbox : String)
    (page pageSize : Nat) (s : List Action) (res : ListEmailsResult)
    (h : (listEmails o mailbox page pageSize s).fst = .ok res) :
    (res.emails.map EmailSummary.uid).Sorted (fun a b : Nat => b ≤ a) := by
  unfold listEmails at h
  rw [tryFinally_catchSwallow] at h
  unfold listEmailsBody connectA mailboxOpenA fetchAllSeqA at h
  simp only [bind_def, pure_def] at h
  cases hcon : o.connectR with
  | error e => rw [hcon, mbind_prim_error] at h; simp at h
  | ok u =>
    rw [hcon, mbind_prim_ok] at h
    cases hmb : o.mailboxOpenR mailbox true with
    | error e => rw [hmb, mbind_prim_error] at h; simp at h
    | ok mb =>
      rw [hmb, mbind_prim_ok] at h
      by_cases hex : (mb.exists == 0) = true
      · rw [if_pos hex] at h
        simp only [mpure] at h
        obtain rfl := (Except.ok.inj h).symm
        simp [List.Sorted]
      · rw [if_neg hex] at h
        cases hpw : pageWindow mb.exists page pageSize with
        | none =>
          rw [hpw] at h
          simp only [mpure] at h
          obtain rfl := (Except.ok.inj h).symm
          simp [List.Sorted]
        | some w =>
          rw [hpw] at h
          obtain ⟨st, en⟩ := w
          simp only at h
          cases hfr : o.fetchAllSeqR st en with
          | error e => rw [hfr, mbind_prim_error] at h; simp at h
          | ok msgs =>
            rw [hfr, mbind_prim_ok] at h
            simp only [mpure] at h
            obtain rfl := (Except.ok.inj h).symm
            have hmap : (List.map EmailSummary.uid
                ((sortUidDesc msgs).map messageToSummary)) =
                (sortUidDesc msgs).map FetchMsg.uid := by
              rw [List.map_map]
              rfl
            dsimp only
            rw [hmap]
            exact sortUidDesc_uid_sorted msgs

/-- C3: for a non-empty ascending list of matching UIDs, searchEmails keeps
exactly the last `limit` UIDs (`slice(-limit)`, i.e. the `limit` highest:
every dropped UID is smaller than every kept one), fetches only those, and
returns the summaries sorted by UID descending — their uid sequence is
exactly the kept slice reversed. -/
theorem c3_search_truncates_to_last_limit (o : ImapOracle) (mailbox : String)
    (criteria : SearchCriteria) (limit : Nat) (mb : MailboxObj)
    (uids : List Nat) (msgs : List FetchMsg)
    (hlim : 1 ≤ limit)
    (hc : o.connectR = .ok ())
    (ho : o.mailboxOpenR mailbox true = .ok mb)
    (hs : o.searchR (buildQuery criteria) = .ok (some uids))
    (hne : uids ≠ [])
    (hsorted : List.Sorted (· < ·) uids)
    (hf : o.fetchAllUidsR (jsSliceNeg uids limit) = .ok msgs)
    (hperm : List.Perm (msgs.map FetchMsg.uid) (jsSliceNeg uids limit)) :
    ∃ emails, (searchEmails o mailbox criteria limit []).fst = .ok emails ∧
      emails.map EmailSummary.uid = (jsSliceNeg uids limit).reverse ∧
      jsSliceNeg uids limit = uids.drop (uids.length - limit) ∧
      (jsSliceNeg uids limit).length = min limit uids.length ∧
      (∀ y ∈ uids.take (uids.length - limit),
        ∀ x ∈ jsSliceNeg uids limit, y < x) ∧
      Action.fetchAllUids (jsSliceNeg uids limit) ∈
        (searchEmails o mailbox criteria limit []).snd := by
  have h0 : (uids.length == 0) = false := by
    simp only [beq_eq_false_iff_ne, ne_eq, List.length_eq_zero]
    exact hne
  have hdrop : jsSliceNeg uids limit = uids.drop (uids.length - limit) := by
    unfold jsSliceNeg
    rw [if_neg (by omega)]
  have hrun : searchEmails o mailbox criteria limit [] =
      (.ok ((sortUidDesc msgs).map messageToSummary),
       [Action.connect, Action.mailboxOpen mailbox true,
        Action.searchCmd (buildQuery criteria),
        Action.fetchAllUids (jsSliceNeg uids limit), Action.logout]) := by
    unfold searchEmails
    rw [tryFinally_catchSwallow]
    unfold searchEmailsBody connectA mailboxOpenA searchA fetchAllUidsA
    simp only [bind_def, pure_def, hc, ho, hs, h0, hf, mbind_prim_ok, mpure,
      Bool.false_eq_true, if_false, List.nil_append, List.cons_append,
      List.append_nil]
  refine ⟨(sortUidDesc msgs).map messageToSummary, by rw [hrun], ?_, hdrop, ?_, ?_, ?_⟩
  · -- the uid sequence is exactly the kept slice, reversed
    have hmap : ((sortUidDesc msgs).map messageToSummary).map EmailSummary.uid =
        (sortUidDesc msgs).map FetchMsg.uid := by
      rw [List.map_map]
      rfl
    rw [hmap]
    have hsel : List.Sorted (· < ·) (jsSliceNeg uids limit) := by
      rw [hdrop]
      exact List.Pairwise.sublist (List.drop_sublist _ _) hsorted
    have permA : List.Perm ((sortUidDesc msgs).map FetchMsg.uid)
        ((jsSliceNeg uids limit).reverse) := by
      refine ((sortUidDesc_perm msgs).map FetchMsg.uid).trans (hperm.trans ?_)
      exact (List.reverse_perm (jsSliceNeg uids limit)).symm
    have sortedA : ((sortUidDesc msgs).map FetchMsg.uid).Sorted
        (fun a b : Nat => b ≤ a) := sortUidDesc_uid_sorted msgs
    have sortedB : ((jsSliceNeg uids limit).reverse).Sorted
        (fun a b : Nat => b ≤ a) := by
      rw [List.Sorted, List.pairwise_reverse]
      exact hsel.imp (fun h => le_of_lt h)
    exact List.eq_of_perm_of_sorted permA sortedA sortedB
  · rw [hdrop, List.length_drop]
    omega
  · intro y hy x hx
    rw [hdrop] at hx
    have := List.take_append_drop (uids.length - limit) uids
    rw [List.Sorted, ← this, List.pairwise_append] at hsorted
    exact hsorted.2.2 y hy x hx
  · rw [hrun]
    simp

/-- Witness for C3: matches [3, 7, 10], limit 2 — the kept slice is [7, 10]
and the returned uid sequence is [10, 7]. -/
theorem c3_search_truncates_to_last_limit_witness :
    1 ≤ 2 ∧ List.Sorted (· < ·) [3, 7, 10] ∧
    ∃ emails,
      (searchEmails searchSampleOracle "INBOX" emptyCriteria 2 []).fst = .ok emails ∧
      emails.map EmailSummary.uid = (jsSliceNeg [3, 7, 10] 2).reverse := by
  refine ⟨by decide, by decide, ?_⟩
  obtain ⟨emails, h1, h2, -⟩ :=
    c3_search_truncates_to_last_limit searchSampleOracle "INBOX" emptyCriteria 2
      { «exists» := 3 } [3, 7, 10] [bareMsg 10, bareMsg 7]
      (by decide) rfl rfl rfl (by decide) (by decide) rfl (by decide)
  exact ⟨emails, h1, h2⟩

/-- Witness for C8: the fetch delivers uids [5, 9] in ascending order and
the returned page carries them sorted descending. -/
theorem c8_list_emails_sorted_desc_witness :
    (listEmails pageSampleOracle "INBOX" 1 20 []).fst = .ok
      { total := 2, page := 1, pageSize := 20,
        emails := [messageToSummary (bareMsg 9), messageToSummary (bareMsg 5)] } ∧
    (({ total := 2, page := 1, pageSize := 20,
        emails := [messageToSummary (bareMsg 9), messageToSummary (bareMsg 5)] } :
        ListEmailsResult).emails.map EmailSummary.uid).Sorted
      (fun a b : Nat => b ≤ a) := by
  have h : (listEmails pageSampleOracle "INBOX" 1 20 []).fst = .ok
      { total := 2, page := 1, pageSize := 20,
        emails := [messageToSummary (bareMsg 9), messageToSummary (bareMsg 5)] } := by
    rfl
  exact ⟨h, c8_list_emails_sorted_desc pageSampleOracle "INBOX" 1 20 [] _ h⟩

/-! ## Characterization of the structure walkers -/

theorem jsTruthyStr_some_iff (s : String) : jsTruthyStr (some s) = true ↔ s ≠ "" := by
  simp [jsTruthyStr]

theorem entriesOf_append (l1 l2 : List MStruct) :
    entriesOf (l1 ++ l2) = entriesOf l1 ++ entriesOf l2 := by
  induction l1 with
  | nil => rfl
  | cons n rest ih => simp [entriesOf, ih]

mutual

theorem collectWalk_eq_entriesOf : ∀ t : MStruct, collectWalk t = entriesOf (preorder t)
  | .mk t p sz d df np ch => by
    cases ch with
    | none => simp [collectWalk, preorder, entriesOf]
    | some cs =>
      simp [collectWalk, preorder, entriesOf, collectWalkList_eq_entriesOf cs]

theorem collectWalkList_eq_entriesOf :
    ∀ l : List MStruct, collectWalkList l = entriesOf (preorderList l)
  | [] => by simp [collectWalkList, preorderList, entriesOf]
  | c :: cs => by
    simp [collectWalkList, preorderList, entriesOf_append,
      collectWalk_eq_entriesOf c, collectWalkList_eq_entriesOf cs]

end

/-- C4: a node contributes an attachment entry exactly when its disposition
is "attachment" (filename or not), or its disposition is "inline" and the
expression `dispositionParameters["filename"] ?? parameters["name"]`
resolves to an actual (non-empty) filename; each node contributes at most
one entry, and the collected output is the per-node entries laid out in
depth-first pre-order (each node's entry precedes its children's), i.e.
document order.  The three spec examples: an inline node with no filename
is excluded, an inline node with a filename is included, an attachment node
without filename is included. -/
theorem c4_attachment_qualification_and_order :
    (∀ n : MStruct, nodeEntry n ≠ [] ↔
        (n.disposition = some "attachment" ∨
         (n.disposition = some "inline" ∧
          ∃ s, jsNullishStr n.dispFilename n.nameParam = some s ∧ s ≠ ""))) ∧
    (∀ n : MStruct, (nodeEntry n).length ≤ 1) ∧
    (∀ t : MStruct, collectWalk t = entriesOf (preorder t)) ∧
    collectAttachments none = [] ∧
    collectAttachments
      (some (.mk "image/png" (some "2") (some 512) (some "inline") none none none)) = [] ∧
    collectAttachments
      (some (.mk "image/png" (some "2") (some 512) (some "inline") (some "pic.png") none none)) =
      [{ filename := some "pic.png", size := some 512, contentType := "image/png" }] ∧
    collectAttachments
      (some (.mk "application/pdf" (some "3") (some 2048) (some "attachment") none none none)) =
      [{ filename := none, size := some 2048, contentType := "application/pdf" }] := by
  refine ⟨?_, ?_, collectWalk_eq_entriesOf, rfl, by decide, by decide, by decide⟩
  · intro n
    obtain ⟨t, p, sz, d, df, np, ch⟩ := n
    unfold nodeEntry
    dsimp only [MStruct.disposition, MStruct.dispFilename, MStruct.nameParam,
      MStruct.size, MStruct.type]
    constructor
    · intro hne
      split at hne
      · rename_i hcond
        split at hne
        · rename_i hcond2
          rw [Bool.or_eq_true] at hcond hcond2
          rcases hcond2 with ha | hf
          · left
            simpa using ha
          · rcases hcond with ha | hi
            · left
              simpa using ha
            · right
              refine ⟨by simpa using hi, ?_⟩
              cases hres : jsNullishStr df np with
              | none => rw [hres] at hf; simp [jsTruthyStr] at hf
              | some s =>
                rw [hres] at hf
                exact ⟨s, rfl, (jsTruthyStr_some_iff s).mp hf⟩
        · exact absurd rfl hne
      · exact absurd rfl hne
    · intro hq
      rcases hq with ha | ⟨hi, s, hres, hs⟩
      · subst ha
        simp
      · subst hi
        rw [hres]
        simp [jsTruthyStr, hs]
  · intro n
    unfold nodeEntry
    split
    · split <;> simp
    · simp

theorem pred_part_nonempty {ty : String} {n : MStruct}
    (h : (n.type == ty && jsTruthyStr n.part) = true) :
    ∃ s, n.part = some s ∧ s ≠ "" := by
  rw [Bool.and_eq_true] at h
  cases hp : n.part with
  | none => rw [hp] at h; simp [jsTruthyStr] at h
  | some s =>
    rw [hp] at h
    exact ⟨s, rfl, (jsTruthyStr_some_iff s).mp h.2⟩

mutual

theorem findWalk_eq_find? (ty : String) : ∀ t : MStruct,
    findWalk ty t =
      ((preorder t).find? (fun n => n.type == ty && jsTruthyStr n.part)).bind
        MStruct.part
  | .mk t p sz d df np none => by
    by_cases hcond : (t == ty && jsTruthyStr p) = true <;>
      simp [findWalk, preorder, MStruct.type, MStruct.part, hcond, List.find?_cons]
  | .mk t p sz d df np (some cs) => by
    by_cases hcond : (t == ty && jsTruthyStr p) = true <;>
      simp [findWalk, preorder, MStruct.type, MStruct.part, hcond, List.find?_cons,
        findWalkList_eq_find? ty cs]

theorem findWalkList_eq_find? (ty : String) : ∀ l : List MStruct,
    findWalkList ty l =
      ((preorderList l).find? (fun n => n.type == ty && jsTruthyStr n.part)).bind
        MStruct.part
  | [] => by simp [findWalkList, preorderList]
  | c :: cs => by
    rw [findWalkList, preorderList, List.find?_append]
    cases hfc : (preorder c).find? (fun n => n.type == ty && jsTruthyStr n.part) with
    | none =>
      have hwc : findWalk ty c = none := by
        rw [findWalk_eq_find? ty c, hfc]
        rfl
      simp [hwc, jsTruthyStr, Option.orElse, findWalkList_eq_find? ty cs]
    | some n =>
      obtain ⟨s, hp, hs⟩ := pred_part_nonempty (show (n.type == ty && jsTruthyStr n.part) = true by
        simpa using List.find?_some hfc)
      have hwc : findWalk ty c = some s := by
        rw [findWalk_eq_find? ty c, hfc]
        simp [hp]
      simp [hwc, jsTruthyStr, hs, Option.orElse, hp]

end

/-- C5: findPart is a depth-first pre-order search returning the
part-identifier of the first node in document order whose contentType
equals the target and which carries a (truthy) part-identifier; it is
absent when no node qualifies, and on the spec's example tree "text/plain"
resolves to "1" and "text/html" to "2" independently. -/
theorem c5_find_first_part_of_type :
    (∀ ty : String, findPart none ty = none) ∧
    (∀ (ty : String) (t : MStruct),
       findPart (some t) ty =
         ((preorder t).find? (fun n => n.type == ty && jsTruthyStr n.part)).bind
           MStruct.part) ∧
    (∀ (ty : String) (t : MStruct),
       (∀ n ∈ preorder t, (n.type == ty && jsTruthyStr n.part) = false) →
       findPart (some t) ty = none) ∧
    findPart (some altTree) "text/plain" = some "1" ∧
    findPart (some altTree) "text/html" = some "2" := by
  refine ⟨fun _ => rfl, fun ty t => findWalk_eq_find? ty t, ?_, by decide, by decide⟩
  intro ty t hnone
  rw [show findPart (some t) ty = findWalk ty t from rfl, findWalk_eq_find? ty t]
  rw [List.find?_eq_none.mpr (by simpa using hnone)]
  rfl

/-- Witness for C5: no node of the example tree has content type
application/json, so the search is absent. -/
theorem c5_find_first_part_of_type_witness :
    (∀ n ∈ preorder altTree,
      (n.type == "application/json" && jsTruthyStr n.part) = false) ∧
    findPart (some altTree) "application/json" = none := by
  refine ⟨by decide, ?_⟩
  exact c5_find_first_part_of_type.2.2.1 "application/json" altTree (by decide)

/-- C6: when neither a text/plain nor a text/html part is located and the
body structure has no child parts, fetchEmail downloads the entire body
(the download with no part identifier is in the trace) and assigns it to
exactly one of textBody/htmlBody by the declared top-level content type:
htmlBody for text/html with textBody left unset, textBody otherwise. -/
theorem c6_single_part_whole_body_fallback (o : ImapOracle) (mailbox : String)
    (uid : Nat) (mb : MailboxObj) (msg : FetchMsg) (fullSource : String)
    (hc : o.connectR = .ok ())
    (ho : o.mailboxOpenR mailbox true = .ok mb)
    (hm : o.fetchOneR uid = .ok (some msg))
    (htp : findPart msg.bodyStructure "text/plain" = none)
    (hhp : findPart msg.bodyStructure "text/html" = none)
    (hch : msg.bodyStructure.bind MStruct.childNodes = none)
    (hd : o.downloadR uid none = .ok fullSource) :
    ∃ res, (fetchEmail o mailbox uid []).fst = .ok res ∧
      Action.download uid none ∈ (fetchEmail o mailbox uid []).snd ∧
      (msg.bodyStructure.map MStruct.type = some "text/html" →
        res.htmlBody = some fullSource ∧ res.textBody = none) ∧
      (msg.bodyStructure.map MStruct.type ≠ some "text/html" →
        res.textBody = some fullSource ∧ res.htmlBody = none) := by
  have hts : jsTruthyStr (findPart msg.bodyStructure "text/plain") = false := by
    rw [htp]; rfl
  have hhs : jsTruthyStr (findPart msg.bodyStructure "text/html") = false := by
    rw [hhp]; rfl
  have hchs : (msg.bodyStructure.bind MStruct.childNodes).isSome = false := by
    rw [hch]; rfl
  by_cases hty : ((msg.bodyStructure.map MStruct.type) == some "text/html") = true
  · refine ⟨mkFetchResult msg none (some fullSource), ?_, ?_, ?_, ?_⟩
    · unfold fetchEmail
      rw [tryFinally_catchSwallow]
      unfold fetchEmailBody connectA mailboxOpenA fetchOneA downloadA
      simp only [bind_def, pure_def, hc, ho, hm, hd, mbind_prim_ok, mbind_mpure,
        mpure, hts, hhs, hchs, hty, Bool.not_false, Bool.and_self, if_true,
        Bool.false_eq_true, if_false]
      rfl
    · unfold fetchEmail
      rw [tryFinally_catchSwallow]
      unfold fetchEmailBody connectA mailboxOpenA fetchOneA downloadA
      simp only [bind_def, pure_def, hc, ho, hm, hd, mbind_prim_ok, mbind_mpure,
        mpure, hts, hhs, hchs, hty, Bool.not_false, Bool.and_self, if_true,
        Bool.false_eq_true, if_false]
      simp [mbind, prim, mpure]
    · intro _
      exact ⟨rfl, rfl⟩
    · intro hne
      exact absurd (by simpa using hty) hne
  · refine ⟨mkFetchResult msg (some fullSource) none, ?_, ?_, ?_, ?_⟩
    · unfold fetchEmail
      rw [tryFinally_catchSwallow]
      unfold fetchEmailBody connectA mailboxOpenA fetchOneA downloadA
      simp only [bind_def, pure_def, hc, ho, hm, hd, mbind_prim_ok, mbind_mpure,
        mpure, hts, hhs, hchs, hty, Bool.not_false, Bool.and_self, if_true,
        Bool.false_eq_true, if_false]
      rfl
    · unfold fetchEmail
      rw [tryFinally_catchSwallow]
      unfold fetchEmailBody connectA mailboxOpenA fetchOneA downloadA
      simp only [bind_def, pure_def, hc, ho, hm, hd, mbind_prim_ok, mbind_mpure,
        mpure, hts, hhs, hchs, hty, Bool.not_false, Bool.and_self, if_true,
        Bool.false_eq_true, if_false]
      simp [mbind, prim, mpure]
    · intro heq
      exact absurd (by simp [heq]) hty
    · intro _
      exact ⟨rfl, rfl⟩

/-- Dissection of a successful bind: the prefix succeeded and the
continuation produced the final value. -/
theorem mbind_ok_fst {α β : Type} (m : M α) (k : α → M β) (s : List Action)
    (res : β) (h : (mbind m k s).fst = .ok res) :
    ∃ a s', m s = (.ok a, s') ∧ (k a s').fst = .ok res := by
  unfold mbind at h
  cases hms : m s with
  | mk r s' =>
    rw [hms] at h
    cases r with
    | error e => simp at h
    | ok a => exact ⟨a, s', rfl, h⟩

/-- Dissection of a successful bind whose prefix is a primitive. -/
theorem mbind_prim_ok_fst {α β : Type} (a0 : Action) (r : Except Err α)
    (k : α → M β) (s : List Action) (res : β)
    (h : (mbind (prim a0 r) k s).fst = .ok res) :
    ∃ v, r = .ok v ∧ (k v (s ++ [a0])).fst = .ok res := by
  cases r with
  | error e => rw [mbind_prim_error] at h; simp at h
  | ok v => exact ⟨v, rfl, by rwa [mbind_prim_ok] at h⟩

/-- Dissection of a successful bind whose prefix is a pure value. -/
theorem mbind_mpure_fst {α β : Type} (v : α) (k : α → M β) (s : List Action)
    (res : β) (h : (mbind (mpure v) k s).fst = .ok res) :
    (k v s).fst = .ok res := by
  rwa [mbind_mpure] at h

/-- Witness for C6: a single-part text/html message — the whole body lands
in htmlBody and textBody stays unset. -/
theorem c6_single_part_whole_body_fallback_witness :
    findPart htmlOnlyMsg.bodyStructure "text/plain" = none ∧
    ∃ res, (fetchEmail fetchSampleOracle "INBOX" 42 []).fst = .ok res ∧
      Action.download 42 none ∈ (fetchEmail fetchSampleOracle "INBOX" 42 []).snd ∧
      (htmlOnlyMsg.bodyStructure.map MStruct.type = some "text/html" →
        res.htmlBody = some "<p>hello</p>" ∧ res.textBody = none) := by
  refine ⟨rfl, ?_⟩
  obtain ⟨res, h1, h2, h3, -⟩ :=
    c6_single_part_whole_body_fallback fetchSampleOracle "INBOX" 42
      { «exists» := 1 } htmlOnlyMsg "<p>hello</p>" rfl rfl rfl rfl rfl rfl rfl
  exact ⟨res, h1, h2, h3⟩

/-- C10: the date field is always a string: the ISO-8601 rendering of the
envelope date when one is present, and the literal text "undefined" (the
`String(...)` fallback) when the envelope or its date is missing — both in
messageToSummary and in the fetchEmail result. -/
theorem c10_date_string_never_absent :
    (∀ env : Option Envelope, jsDateField env =
       match env.bind Envelope.date with
       | some d => d.toISOString
       | none => "undefined") ∧
    (∀ msg : FetchMsg, (messageToSummary msg).date = jsDateField msg.envelope) ∧
    (∀ (o : ImapOracle) (mailbox : String) (uid : Nat) (msg : FetchMsg)
       (s : List Action) (res : FetchEmailResult),
       o.fetchOneR uid = .ok (some msg) →
       (fetchEmail o mailbox uid s).fst = .ok res →
       res.date = jsDateField msg.envelope) := by
  refine ⟨?_, fun _ => rfl, ?_⟩
  · intro env
    cases env with
    | none => rfl
    | some e =>
      cases hd : e.date with
      | none => simp [jsDateField, hd]
      | some d => simp [jsDateField, hd]
  · intro o mailbox uid msg s res hm h
    unfold fetchEmail at h
    rw [tryFinally_catchSwallow] at h
    unfold fetchEmailBody connectA mailboxOpenA fetchOneA downloadA at h
    simp only [bind_def, pure_def] at h
    obtain ⟨u1, s1, -, h⟩ := mbind_ok_fst _ _ _ _ h
    obtain ⟨mb1, s2, -, h⟩ := mbind_ok_fst _ _ _ _ h
    obtain ⟨msgOpt, s3, hmo, h⟩ := mbind_ok_fst _ _ _ _ h
    unfold prim at hmo
    rw [hm] at hmo
    obtain rfl : msgOpt = some msg :=
      (Except.ok.inj (congrArg Prod.fst hmo)).symm
    dsimp only at h
    obtain ⟨tb, s4, -, h⟩ := mbind_ok_fst _ _ _ _ h
    obtain ⟨hb, s5, -, h⟩ := mbind_ok_fst _ _ _ _ h
    obtain ⟨bodies, s6, -, h⟩ := mbind_ok_fst _ _ _ _ h
    simp only [mpure] at h
    obtain rfl := (Except.ok.inj h).symm
    rfl

/-- Witness for C10: fetching the sample single-part message yields date
"undefined" because its envelope is missing. -/
theorem c10_date_string_never_absent_witness :
    fetchSampleOracle.fetchOneR 42 = .ok (some htmlOnlyMsg) ∧
    ∃ res, (fetchEmail fetchSampleOracle "INBOX" 42 []).fst = .ok res ∧
      res.date = jsDateField htmlOnlyMsg.envelope ∧
      jsDateField htmlOnlyMsg.envelope = "undefined" := by
  have h1 : (fetchEmail fetchSampleOracle "INBOX" 42 []).fst =
      .ok (mkFetchResult htmlOnlyMsg none (some "<p>hello</p>")) := rfl
  exact ⟨rfl, mkFetchResult htmlOnlyMsg none (some "<p>hello</p>"), h1,
    c10_date_string_never_absent.2.2 fetchSampleOracle "INBOX" 42 htmlOnlyMsg
      [] (mkFetchResult htmlOnlyMsg none (some "<p>hello</p>")) rfl h1,
    rfl⟩

end EmailMcp
